import Mathlib

/-!
Verification of the ADPF hint-session CTS native app
(`hostsidetests/adpf/app/hintsession/src/cpp`): the `EventLoop` task queue,
the `Model` physics in `Model.h`, the statistics and hint-session logic in
`Renderer.cpp`, and the `calibrate` loop in `main.cpp`, shallowly embedded
in Lean 4.

Conventions of the embedding:
* `float` / `double` / `int64_t` arithmetic is modelled exactly, over `ℚ`
  for floating-point values and `ℤ` for 64-bit integers (overflow does not
  occur in the ranges these claims are about);
* `std::sqrt` is passed in as an explicit function parameter `sq : ℚ → ℚ`
  wherever its value can influence the state, so every definition stays
  computable and the properties proved hold for any square-root
  approximation;
* stateful code is embedded as explicit state passing, and the concurrent
  `EventLoop` as a small-step transition relation whose atomic steps are
  the code's mutex-protected critical sections.
-/

namespace HintSession

/-- Embeds `union Vector3` from `Model.h` (the `x, y, z` view; `float` as `ℚ`). -/
structure Vector3 where
  x : ℚ
  y : ℚ
  z : ℚ
  deriving Repr, DecidableEq

/-- Embeds `Vector3::operator*` (componentwise scale). -/
def Vector3.smul (v : Vector3) (value : ℚ) : Vector3 :=
  ⟨v.x * value, v.y * value, v.z * value⟩

/-- Embeds `Vector3::operator/` (componentwise divide). -/
def Vector3.vdiv (v : Vector3) (value : ℚ) : Vector3 :=
  ⟨v.x / value, v.y / value, v.z / value⟩

/-- Embeds `Vector3::operator+`. -/
def Vector3.add (v other : Vector3) : Vector3 :=
  ⟨v.x + other.x, v.y + other.y, v.z + other.z⟩

/-- Embeds `Vector3::operator-`. -/
def Vector3.sub (v other : Vector3) : Vector3 :=
  ⟨v.x - other.x, v.y - other.y, v.z - other.z⟩

/-- Componentwise negation (`-v`, as the spec writes `move(-offset)`). -/
def Vector3.neg (v : Vector3) : Vector3 :=
  ⟨-v.x, -v.y, -v.z⟩

/-- Embeds `union Vector2` from `Model.h` (`u`/`v` texture coordinates). -/
structure Vector2 where
  u : ℚ
  v : ℚ
  deriving Repr, DecidableEq

/-- Embeds `struct Vertex` from `Model.h`. -/
structure Vertex where
  position : Vector3
  uv : Vector2
  deriving Repr, DecidableEq

/-- Embeds `class Model` from `Model.h` (the fields the claims touch; `Index` is
`uint16_t`, modelled as `ℕ`). -/
structure Model where
  center : Vector3
  currentVertices : List Vertex
  startVertices : List Vertex
  indices : List ℕ
  rotationOffset : ℚ
  velocity : Vector3
  mass : ℚ
  id : ℤ
  deriving Repr, DecidableEq

/-- Shift one vertex position by `offset` (the loop body of `Model::move`). -/
def shiftVertex (offset : Vector3) (v : Vertex) : Vertex :=
  { v with position := v.position.add offset }

/-- The `currentVertices_[i]` updates of `Model::move`: the loop runs for
`i < startVertices_.size()`, so the start list drives how many current
vertices are shifted. -/
def moveCurrent (offset : Vector3) : List Vertex → List Vertex → List Vertex
  | [], cur => cur
  | _ :: _, [] => []
  | _ :: ss, c :: cs => shiftVertex offset c :: moveCurrent offset ss cs

/-- Embeds `Model::move(Vector3 offset)`: shifts every start vertex, the current
vertices at the same indices, and the center. -/
def Model.move (m : Model) (offset : Vector3) : Model :=
  { m with
    startVertices := m.startVertices.map (shiftVertex offset)
    currentVertices := moveCurrent offset m.startVertices m.currentVertices
    center := m.center.add offset }

theorem Vector3.add_neg_cancel (p o : Vector3) : (p.add o).add o.neg = p := by
  cases p; cases o
  simp [Vector3.add, Vector3.neg]

theorem shiftVertex_neg_cancel (o : Vector3) (v : Vertex) :
    shiftVertex o.neg (shiftVertex o v) = v := by
  cases v
  simp [shiftVertex, Vector3.add_neg_cancel]

theorem moveCurrent_neg_cancel (o : Vector3) :
    ∀ (ss cs : List Vertex),
      moveCurrent o.neg (ss.map (shiftVertex o)) (moveCurrent o ss cs) = cs := by
  intro ss
  induction ss with
  | nil => intro cs; simp [moveCurrent]
  | cons s ss ih =>
    intro cs
    cases cs with
    | nil => simp [moveCurrent]
    | cons c cs => simp [moveCurrent, ih, shiftVertex_neg_cancel]

/-- Claim C9: `Model::move(offset)` followed by `move(-offset)` restores the
original center and all original vertex positions (exact round-trip in the
exact-arithmetic model of `float`). -/
theorem model_move_roundtrip (m : Model) (v : Vector3) :
    (m.move v).move v.neg = m := by
  cases m
  have h : shiftVertex v.neg ∘ shiftVertex v = id := by
    funext w; simp [shiftVertex_neg_cancel]
  simp [Model.move, moveCurrent_neg_cancel, List.map_map, h,
    Vector3.add_neg_cancel]

/-! ### `Model::nBodySimulation` / `Model::applyPhysics` -/

/-- Placeholder model (`Model()` default constructor); used only as the
out-of-range default of list indexing, which the physics loop never hits. -/
def defaultModel : Model :=
  ⟨⟨0, 0, 0⟩, [], [], [], 0, ⟨0, 0, 0⟩, 1, 0⟩

/-- Embeds `static const float G = 6.67e-10;` -/
def gravityG : ℚ := 667 / 1000000000000

/-- One term of the inner `j` loop of `nBodySimulation`: the acceleration
contribution of `other` on `model`.  `sq` stands for `std::sqrt`. -/
def accContribution (sq : ℚ → ℚ) (model other : Model) : Vector3 :=
  let dx := model.center.x - other.center.x
  let dy := model.center.y - other.center.y
  let dz := model.center.z - other.center.z
  let distanceSq := dx * dx + dy * dy + dz * dz
  let direction : Vector3 := ⟨dx, dy, dz⟩
  let distance := sq distanceSq
  let force := (gravityG * model.mass * other.mass) / max (1 / 100) distanceSq
  (direction.vdiv (max (1 / 100) distance)).smul (force / model.mass)

/-- The full inner `j` loop: accumulate acceleration on `models[i]` from
every other body, in index order, over the current (partially updated)
model list. -/
def accumulateAcc (sq : ℚ → ℚ) (ms : List Model) (i : ℕ) : Vector3 :=
  (List.range ms.length).foldl
    (fun acc j =>
      if i ≠ j then
        acc.add (accContribution sq (ms.getD i defaultModel) (ms.getD j defaultModel))
      else acc)
    ⟨0, 0, 0⟩

/-- The `x` reflective-boundary branch of `nBodySimulation`. -/
def clampX (width : ℚ) (m : Model) : Model :=
  if m.center.x ≤ -width / 2 ∨ m.center.x ≥ width / 2 then
    let vx := if m.center.x ≤ -width / 2 then |m.velocity.x| else -|m.velocity.x|
    let border := if m.center.x ≤ -width / 2 then -width / 2 else width / 2
    let m1 := { m with velocity := { m.velocity with x := vx } }
    m1.move ⟨border - m1.center.x, 0, 0⟩
  else m

/-- The `y` reflective-boundary branch of `nBodySimulation`. -/
def clampY (height : ℚ) (m : Model) : Model :=
  if m.center.y ≤ -height / 2 ∨ m.center.y ≥ height / 2 then
    let vy := if m.center.y ≤ -height / 2 then |m.velocity.y| else -|m.velocity.y|
    let border := if m.center.y ≤ -height / 2 then -height / 2 else height / 2
    let m1 := { m with velocity := { m.velocity with y := vy } }
    m1.move ⟨0, border - m1.center.y, 0⟩
  else m

/-- The body of the outer `i` loop of `nBodySimulation`: integrate
velocity, move, then apply both boundary clamps. -/
def updateModelAt (sq : ℚ → ℚ) (dt width height : ℚ) (ms : List Model) (i : ℕ) :
    Model :=
  let model := ms.getD i defaultModel
  let acc := accumulateAcc sq ms i
  let v1 := model.velocity.add (acc.smul dt)
  let m1 := ({ model with velocity := v1 }).move (v1.smul dt)
  clampY height (clampX width m1)

/-- Embeds `Model::nBodySimulation(deltaTimeUnit, models, size, width, height)`
with `size = models.length`: each index is updated in place, in order,
reading the partially updated array. -/
def nBodySimulation (sq : ℚ → ℚ) (dt : ℚ) (ms : List Model) (width height : ℚ) :
    List Model :=
  (List.range ms.length).foldl
    (fun cur i => cur.set i (updateModelAt sq dt width height cur i)) ms

/-- Embeds `Model::applyPhysics`, which forwards to `nBodySimulation`. -/
def applyPhysics (sq : ℚ → ℚ) (dt : ℚ) (ms : List Model) (width height : ℚ) :
    List Model :=
  nBodySimulation sq dt ms width height

/-- The reflective boundary invariant: the model's center lies within
`[-width/2, width/2] × [-height/2, height/2]`. -/
def inBounds (width height : ℚ) (m : Model) : Prop :=
  -width / 2 ≤ m.center.x ∧ m.center.x ≤ width / 2 ∧
    -height / 2 ≤ m.center.y ∧ m.center.y ≤ height / 2

theorem move_center (m : Model) (o : Vector3) :
    (m.move o).center = m.center.add o := rfl

theorem clampX_bounds (width : ℚ) (m : Model) (hw : 0 ≤ width) :
    -width / 2 ≤ (clampX width m).center.x ∧ (clampX width m).center.x ≤ width / 2 := by
  unfold clampX
  split
  · split
    · simp only [move_center, Vector3.add]
      constructor <;> dsimp <;> linarith
    · simp only [move_center, Vector3.add]
      constructor <;> dsimp <;> linarith
  · rename_i hcond
    push_neg at hcond
    exact ⟨le_of_lt hcond.1, le_of_lt hcond.2⟩

theorem clampY_center_x (height : ℚ) (m : Model) :
    (clampY height m).center.x = m.center.x := by
  unfold clampY
  split
  · split <;> simp [move_center, Vector3.add]
  · rfl

theorem clampY_bounds (height : ℚ) (m : Model) (hh : 0 ≤ height) :
    -height / 2 ≤ (clampY height m).center.y ∧ (clampY height m).center.y ≤ height / 2 := by
  unfold clampY
  split
  · split
    · simp only [move_center, Vector3.add]
      constructor <;> dsimp <;> linarith
    · simp only [move_center, Vector3.add]
      constructor <;> dsimp <;> linarith
  · rename_i hcond
    push_neg at hcond
    exact ⟨le_of_lt hcond.1, le_of_lt hcond.2⟩

theorem updateModelAt_inBounds (sq : ℚ → ℚ) (dt width height : ℚ)
    (ms : List Model) (i : ℕ) (hw : 0 ≤ width) (hh : 0 ≤ height) :
    inBounds width height (updateModelAt sq dt width height ms i) := by
  unfold updateModelAt inBounds
  refine ⟨?_, ?_, ?_, ?_⟩
  · rw [clampY_center_x]; exact (clampX_bounds width _ hw).1
  · rw [clampY_center_x]; exact (clampX_bounds width _ hw).2
  · exact (clampY_bounds height _ hh).1
  · exact (clampY_bounds height _ hh).2

theorem getD_set_self {α : Type} :
    ∀ (l : List α) (i : ℕ) (a d : α), i < l.length → (l.set i a).getD i d = a := by
  intro l
  induction l with
  | nil => intro i a d h; simp at h
  | cons x xs ih =>
    intro i a d h
    cases i with
    | zero => rfl
    | succ n =>
      simp only [List.set, List.getD, List.get?]
      exact ih n a d (by simpa using h)

theorem getD_set_ne {α : Type} :
    ∀ (l : List α) (i j : ℕ) (a d : α), i ≠ j → (l.set i a).getD j d = l.getD j d := by
  intro l
  induction l with
  | nil => intro i j a d _; cases i <;> rfl
  | cons x xs ih =>
    intro i j a d hij
    cases i with
    | zero =>
      cases j with
      | zero => exact absurd rfl hij
      | succ m => rfl
    | succ n =>
      cases j with
      | zero => rfl
      | succ m =>
        simp only [List.set, List.getD, List.get?]
        exact ih n m a d (fun h => hij (by rw [h]))

theorem foldl_set_length {α : Type} (f : List α → ℕ → α) :
    ∀ (idxs : List ℕ) (ms : List α),
      (idxs.foldl (fun cur i => cur.set i (f cur i)) ms).length = ms.length := by
  intro idxs
  induction idxs with
  | nil => intro ms; rfl
  | cons i idxs ih =>
    intro ms
    simp only [List.foldl_cons]
    rw [ih, List.length_set]

theorem foldl_set_all {α : Type} (P : α → Prop) (d : α) (f : List α → ℕ → α)
    (hf : ∀ ms i, P (f ms i)) :
    ∀ (idxs : List ℕ) (ms : List α) (j : ℕ), j < ms.length →
      (j ∈ idxs ∨ P (ms.getD j d)) →
      P ((idxs.foldl (fun cur i => cur.set i (f cur i)) ms).getD j d) := by
  intro idxs
  induction idxs with
  | nil =>
    intro ms j hj hmem
    rcases hmem with h | h
    · simp at h
    · exact h
  | cons i idxs ih =>
    intro ms j hj hmem
    simp only [List.foldl_cons]
    have hlen : j < (ms.set i (f ms i)).length := by
      rw [List.length_set]; exact hj
    by_cases hji : j ∈ idxs
    · exact ih _ j hlen (Or.inl hji)
    · refine ih _ j hlen (Or.inr ?_)
      by_cases hij : i = j
      · subst hij
        rw [getD_set_self _ _ _ _ hj]
        exact hf ms i
      · rw [getD_set_ne _ _ _ _ _ hij]
        rcases hmem with h | h
        · rcases List.mem_cons.mp h with h1 | h1
          · exact absurd h1.symm hij
          · exact absurd h1 hji
        · exact h

theorem nBodySimulation_inBounds (sq : ℚ → ℚ) (dt width height : ℚ)
    (ms : List Model) (hw : 0 ≤ width) (hh : 0 ≤ height) :
    ∀ m ∈ nBodySimulation sq dt ms width height, inBounds width height m := by
  intro m hm
  unfold nBodySimulation at hm
  rcases List.mem_iff_getElem.mp hm with ⟨j, hj, hget⟩
  have hjlen : j < ms.length := by
    rwa [foldl_set_length (updateModelAt sq dt width height)] at hj
  have hall := foldl_set_all (inBounds width height) defaultModel
    (updateModelAt sq dt width height)
    (fun cur i => updateModelAt_inBounds sq dt width height cur i hw hh)
    (List.range ms.length) ms j hjlen (Or.inl (List.mem_range.mpr hjlen))
  rw [List.getD_eq_getElem _ _ hj] at hall
  rwa [hget] at hall

/-- Claim C4: After `Model::applyPhysics(dt, models, size, W, H)` — and after
any number `k ≥ 1` of iterated calls — every model's center lies within
`[-W/2, W/2] × [-H/2, H/2]`, for every model array, timestep, square-root
approximation, and nonnegative boundary dimensions `W`, `H`. -/
theorem applyPhysics_reflective_boundary (sq : ℚ → ℚ) (dt width height : ℚ)
    (ms : List Model) (k : ℕ) (hw : 0 ≤ width) (hh : 0 ≤ height) (hk : 1 ≤ k) :
    ∀ m ∈ (fun l => applyPhysics sq dt l width height)^[k] ms,
      inBounds width height m := by
  obtain ⟨n, rfl⟩ : ∃ n, k = n + 1 := ⟨k - 1, (Nat.succ_pred_eq_of_pos hk).symm⟩
  rw [Function.iterate_succ_apply']
  exact nBodySimulation_inBounds sq dt width height _ hw hh

/-- Witness for C4: A concrete two-body system in a 2×2 box: one physics
step keeps both centers inside the box. -/
theorem applyPhysics_reflective_boundary_witness :
    (0 : ℚ) ≤ 2 ∧ (1 : ℕ) ≤ 1 ∧
      ∀ m ∈ (fun l => applyPhysics (fun q => q) 1 l 2 2)^[1]
          [{ defaultModel with center := ⟨5, -7, 0⟩, velocity := ⟨1, 1, 0⟩ },
           { defaultModel with center := ⟨0, 0, 0⟩ }],
        inBounds 2 2 m :=
  ⟨by norm_num, le_refl 1,
    applyPhysics_reflective_boundary (fun q => q) 1 2 2 _ 1
      (by norm_num) (by norm_num) (le_refl 1)⟩

/-! ### `EventLoop`

The loop's concurrency is embedded as a small-step transition relation.
Each step is one of the code's mutex-protected critical sections, executed
atomically: `queueWork` appends under `mQueueMutex`; the worker's swap of
`mEventsQueue` into `mEventsProcessing` happens under `mQueueMutex` with
the processing queue already drained; running the front task happens under
`mRunnerMutex` after the `!mStopping` checks; the destructor's store of
`mStopping` is the `stop` step.  Tasks are identified by natural numbers
in enqueue order; `executed` and `enqueued` are history variables. -/

/-- The observable state of one `EventLoop`. -/
structure ELState where
  pending : List ℕ
  processing : List ℕ
  executed : List ℕ
  enqueued : List ℕ
  stopping : Bool
  deriving Repr, DecidableEq

/-- Fresh `EventLoop`: both queues empty, nothing run, not stopping. -/
def ELState.init : ELState := ⟨[], [], [], [], false⟩

/-- One atomic step of the `EventLoop` and its clients. -/
inductive ELStep : ELState → ELState → Prop
  /-- Step `EventLoop::queueWork`: push the job at the back of `mEventsQueue`
  (no stopping check in the code). -/
  | queueWork (s : ELState) (t : ℕ) :
      ELStep s { s with pending := s.pending ++ [t], enqueued := s.enqueued ++ [t] }
  /-- The worker wakes with a nonempty queue, is not stopping, and swaps
  the queues; `mEventsProcessing` is empty here because the inner loop
  drains it completely before the worker returns to the wait. -/
  | swap (s : ELState) (h1 : s.stopping = false) (h2 : s.processing = [])
      (h3 : s.pending ≠ []) :
      ELStep s { s with processing := s.pending, pending := [] }
  /-- The worker pops and runs `mEventsProcessing.front()` after observing
  `!mStopping`. -/
  | runFront (s : ELState) (t : ℕ) (rest : List ℕ) (h1 : s.stopping = false)
      (h2 : s.processing = t :: rest) :
      ELStep s { s with processing := rest, executed := s.executed ++ [t] }
  /-- Step `EventLoop::~EventLoop` stores `mStopping = true` (then notifies and
  joins; once set it is never cleared). -/
  | stop (s : ELState) :
      ELStep s { s with stopping := true }

/-- Queue bookkeeping invariant: the enqueue history splits into the run
history, the in-flight batch, and the still-pending batch, in that order. -/
theorem elstep_queue_invariant {s s' : ELState} (h : ELStep s s')
    (inv : s.enqueued = s.executed ++ s.processing ++ s.pending) :
    s'.enqueued = s'.executed ++ s'.processing ++ s'.pending := by
  cases h with
  | queueWork t => simp only [inv]; simp
  | swap h1 h2 h3 => simp only [inv, h2]; simp
  | runFront t rest h1 h2 => simp only [inv, h2]; simp
  | stop => exact inv

theorem el_reachable_invariant {s : ELState}
    (h : Relation.ReflTransGen ELStep ELState.init s) :
    s.enqueued = s.executed ++ s.processing ++ s.pending := by
  induction h with
  | refl => rfl
  | tail _ step ih => exact elstep_queue_invariant step ih

/-- Claim C1: In every reachable state of an `EventLoop`, the enqueue
history equals run history ++ in-flight batch ++ pending batch, so the
list of tasks the worker has executed is always a prefix of the list of
tasks enqueued: execution is FIFO, with no reordering, across the
pending/in-flight queue swap. -/
theorem eventLoop_fifo (s : ELState)
    (h : Relation.ReflTransGen ELStep ELState.init s) :
    s.enqueued = s.executed ++ s.processing ++ s.pending ∧
      s.executed <+: s.enqueued := by
  have inv := el_reachable_invariant h
  exact ⟨inv, ⟨s.processing ++ s.pending, by rw [inv, List.append_assoc]⟩⟩

/-- Witness for C1: Three tasks enqueued across two swaps run in enqueue
order `[10, 20, 30]`. -/
theorem eventLoop_fifo_witness :
    (ELState.mk [] [] [10, 20, 30] [10, 20, 30] false).enqueued =
        (ELState.mk [] [] [10, 20, 30] [10, 20, 30] false).executed ++
          (ELState.mk [] [] [10, 20, 30] [10, 20, 30] false).processing ++
          (ELState.mk [] [] [10, 20, 30] [10, 20, 30] false).pending ∧
      (ELState.mk [] [] [10, 20, 30] [10, 20, 30] false).executed <+:
        (ELState.mk [] [] [10, 20, 30] [10, 20, 30] false).enqueued := by
  refine eventLoop_fifo _ ?_
  exact Relation.ReflTransGen.tail
    (Relation.ReflTransGen.tail
      (Relation.ReflTransGen.tail
        (Relation.ReflTransGen.tail
          (Relation.ReflTransGen.tail
            (Relation.ReflTransGen.tail
              (Relation.ReflTransGen.tail
                (Relation.ReflTransGen.tail Relation.ReflTransGen.refl
                  (ELStep.queueWork ELState.init 10))
                (ELStep.queueWork _ 20))
              (ELStep.swap _ rfl rfl (by simp)))
            (ELStep.runFront _ 10 [20] rfl rfl))
          (ELStep.queueWork _ 30))
        (ELStep.runFront _ 20 [] rfl rfl))
      (ELStep.swap _ rfl rfl (by simp)))
    (ELStep.runFront _ 30 [] rfl rfl)

/-- Claim C5: Once the destructor has set `mStopping` (and then notifies and
joins), the flag stays set and no further task ever runs: along every
continuation the run history is frozen, so every task still queued
(pending or in-flight, not yet started) at shutdown is dropped and never
executed. -/
theorem eventLoop_shutdown_drops (s s' : ELState)
    (h : Relation.ReflTransGen ELStep s s') (hstop : s.stopping = true) :
    s'.executed = s.executed ∧ s'.stopping = true ∧
      ∀ t ∈ s.pending ++ s.processing, t ∉ s.executed → t ∉ s'.executed := by
  induction h with
  | refl => exact ⟨rfl, hstop, fun t _ ht => ht⟩
  | tail _ step ih =>
    rcases ih with ⟨hexec, hstop', hdrop⟩
    cases step with
    | queueWork t => exact ⟨hexec, hstop', hdrop⟩
    | swap h1 h2 h3 => rw [hstop'] at h1; cases h1
    | runFront t rest h1 h2 => rw [hstop'] at h1; cases h1
    | stop => exact ⟨hexec, rfl, hdrop⟩

/-- Witness for C5: A loop shut down with task `7` in flight and `5` still
pending: after a further enqueue step, neither ever reaches the run
history. -/
theorem eventLoop_shutdown_drops_witness :
    (ELState.mk ([5] ++ [9]) [7] [1] [1, 7, 5, 9] true).executed =
        (ELState.mk [5] [7] [1] [1, 7, 5] true).executed ∧
      (ELState.mk ([5] ++ [9]) [7] [1] [1, 7, 5, 9] true).stopping = true ∧
      ∀ t ∈ (ELState.mk [5] [7] [1] [1, 7, 5] true).pending ++
          (ELState.mk [5] [7] [1] [1, 7, 5] true).processing,
        t ∉ (ELState.mk [5] [7] [1] [1, 7, 5] true).executed →
          t ∉ (ELState.mk ([5] ++ [9]) [7] [1] [1, 7, 5, 9] true).executed :=
  eventLoop_shutdown_drops _ _
    (Relation.ReflTransGen.tail Relation.ReflTransGen.refl
      (ELStep.queueWork (ELState.mk [5] [7] [1] [1, 7, 5] true) 9))
    rfl

/-! ### `EventLoop::getlooptid`

`run()` executes `mTidPromise.set_value(gettid())` exactly once, before
entering its loop; `mTidFuture.get()` blocks until that store and then
yields the stored id.  `getlooptid` caches the result in `mTid`.  The
embedding passes the published id as `workerTid` and the cache `mTid` as
explicit state; the returned `Bool` records whether the call touched the
future (i.e. could block). -/

/-- Embeds `EventLoop::getlooptid()`: on a cache miss read `mTidFuture.get()`
(blocking until the worker has published) and cache it; otherwise return
the cached value without touching the future. -/
def getlooptid (workerTid : ℤ) (mTid : Option ℤ) : ℤ × Option ℤ × Bool :=
  match mTid with
  | none => (workerTid, some workerTid, true)
  | some t => (t, some t, false)

/-- Claim C6: From any reachable cache state (`mTid` starts empty and is
only ever filled from the future, which only ever yields the worker's
published id), `getlooptid` returns the worker's published thread id,
leaves the cache holding exactly that id (so the invariant is preserved
and every call returns the same value), and touches the blocking future
precisely on the first call (empty cache). -/
theorem getlooptid_spec (workerTid : ℤ) (mTid : Option ℤ)
    (h : mTid = none ∨ mTid = some workerTid) :
    (getlooptid workerTid mTid).1 = workerTid ∧
      (getlooptid workerTid mTid).2.1 = some workerTid ∧
      ((getlooptid workerTid mTid).2.2 = true ↔ mTid = none) := by
  rcases h with h | h <;> subst h <;> simp [getlooptid]

/-- Witness for C6: With published id `42`: the first call (empty cache)
returns `42` and blocks on the future; by the theorem the refilled cache
again satisfies the hypothesis, and the second call returns `42` without
touching the future. -/
theorem getlooptid_spec_witness :
    ((getlooptid 42 none).1 = 42 ∧ (getlooptid 42 none).2.1 = some 42 ∧
        ((getlooptid 42 none).2.2 = true ↔ (none : Option ℤ) = none)) ∧
      ((getlooptid 42 (some 42)).1 = 42 ∧
        (getlooptid 42 (some 42)).2.1 = some 42 ∧
        ((getlooptid 42 (some 42)).2.2 = true ↔ (some 42 : Option ℤ) = none)) :=
  ⟨getlooptid_spec 42 none (Or.inl rfl),
    getlooptid_spec 42 (some 42) (Or.inr rfl)⟩

/-! ### `Renderer.cpp` statistics helpers -/

/-- Embeds `struct Vsync` from `Renderer.h` (`size_t`/`int64_t` as `ℕ`/`ℤ`). -/
structure Vsync where
  index : ℕ
  deadlineNanos : ℤ
  presentationNanos : ℤ
  vsyncId : ℤ
  deriving Repr, DecidableEq, Inhabited

/-- Embeds `struct VsyncData` from `Renderer.h`. -/
structure VsyncData where
  frameTimeNanos : ℤ
  numVsyncs : ℕ
  preferredVsync : ℕ
  vsyncs : List Vsync
  deriving Repr, DecidableEq, Inhabited

/-- Embeds `struct FrameBatchData` from `Renderer.h`. -/
structure FrameBatchData where
  durations : List ℤ
  intervals : List ℤ
  vsyncs : List VsyncData
  selectedVsync : List Vsync
  deriving Repr, DecidableEq, Inhabited

/-- Embeds `getMedian` from `Renderer.cpp`: sort a copy of the input, return the
element at index `size / 2`.  `std::sort` on integers produces the unique
sorted permutation, so a sorted-permutation embedding is exact; the
out-of-range index on empty input (undefined behaviour in C++) is
modelled as `none`. -/
def getMedian (values : List ℤ) : Option ℤ :=
  (List.insertionSort (· ≤ ·) values)[values.length / 2]?

/-- Computes `|vsyncs[i].deadlineNanos - frameTimeNanos - target|`, the quantity
`getClosestCallbackToTarget` minimises. -/
def candDiff (target frameTime : ℤ) (v : Vsync) : ℤ :=
  |v.deadlineNanos - frameTime - target|

/-- The scan loop of `getClosestCallbackToTarget`: keep the current best,
replacing it only on a strictly smaller difference. -/
def closestGo (target frameTime : ℤ) : Vsync → List Vsync → Vsync
  | best, [] => best
  | best, v :: vs =>
    if candDiff target frameTime v < candDiff target frameTime best then
      closestGo target frameTime v vs
    else
      closestGo target frameTime best vs

/-- Embeds `getClosestCallbackToTarget(target, data)` from `Renderer.cpp`:
linear scan from index 0.  Indexing `data.vsyncs[0]` on an empty vector is
undefined behaviour in C++; the embedding returns the default `Vsync`
there (the claim only covers non-empty snapshots). -/
def getClosestCallbackToTarget (target : ℤ) (data : VsyncData) : Vsync :=
  match data.vsyncs with
  | [] => default
  | v0 :: rest => closestGo target data.frameTimeNanos v0 rest

theorem closestGo_spec (target frameTime : ℤ) :
    ∀ (vs : List Vsync) (best : Vsync),
      (closestGo target frameTime best vs = best ∧
        ∀ v ∈ vs, candDiff target frameTime best ≤ candDiff target frameTime v) ∨
      (∃ l₁ l₂, vs = l₁ ++ closestGo target frameTime best vs :: l₂ ∧
        candDiff target frameTime (closestGo target frameTime best vs) <
          candDiff target frameTime best ∧
        (∀ v ∈ l₁, candDiff target frameTime (closestGo target frameTime best vs) <
          candDiff target frameTime v) ∧
        (∀ v ∈ l₂, candDiff target frameTime (closestGo target frameTime best vs) ≤
          candDiff target frameTime v)) := by
  intro vs
  induction vs with
  | nil => intro best; exact Or.inl ⟨rfl, by simp⟩
  | cons v rest ih =>
    intro best
    by_cases hlt : candDiff target frameTime v < candDiff target frameTime best
    · have hres : closestGo target frameTime best (v :: rest) =
          closestGo target frameTime v rest := by
        simp [closestGo, hlt]
      rw [hres]
      rcases ih v with ⟨heq, hall⟩ | ⟨l₁, l₂, hsplit, hbest, hleft, hright⟩
      · refine Or.inr ⟨[], rest, ?_, ?_, ?_, ?_⟩
        · simp [heq]
        · rw [heq]; exact hlt
        · simp
        · intro w hw; rw [heq]; exact hall w hw
      · refine Or.inr ⟨v :: l₁, l₂, ?_, ?_, ?_, hright⟩
        · rw [List.cons_append, ← hsplit]
        · exact lt_trans hbest hlt
        · intro w hw
          rcases List.mem_cons.mp hw with rfl | hw1
          · exact hbest
          · exact hleft w hw1
    · have hres : closestGo target frameTime best (v :: rest) =
          closestGo target frameTime best rest := by
        simp [closestGo, hlt]
      rw [hres]
      rcases ih best with ⟨heq, hall⟩ | ⟨l₁, l₂, hsplit, hbest, hleft, hright⟩
      · refine Or.inl ⟨heq, ?_⟩
        intro w hw
        rcases List.mem_cons.mp hw with rfl | hw1
        · exact le_of_not_lt hlt
        · exact hall w hw1
      · refine Or.inr ⟨v :: l₁, l₂, ?_, hbest, ?_, hright⟩
        · rw [List.cons_append, ← hsplit]
        · intro w hw
          rcases List.mem_cons.mp hw with rfl | hw1
          · exact lt_of_lt_of_le hbest (le_of_not_lt hlt)
          · exact hleft w hw1

/-- Claim C7: For every target and every non-empty vsync snapshot,
`getClosestCallbackToTarget` returns a candidate of the snapshot whose
`deadlineNanos - frameTimeNanos` is closest in absolute difference to the
target, and every candidate at a lower index has a strictly larger
difference: ties go to the first minimum found scanning low-to-high. -/
theorem getClosestCallbackToTarget_spec (target : ℤ) (data : VsyncData)
    (hne : data.vsyncs ≠ []) :
    ∃ l₁ l₂, data.vsyncs = l₁ ++ getClosestCallbackToTarget target data :: l₂ ∧
      (∀ v ∈ data.vsyncs,
        candDiff target data.frameTimeNanos (getClosestCallbackToTarget target data) ≤
          candDiff target data.frameTimeNanos v) ∧
      (∀ v ∈ l₁,
        candDiff target data.frameTimeNanos (getClosestCallbackToTarget target data) <
          candDiff target data.frameTimeNanos v) := by
  rcases hvs : data.vsyncs with _ | ⟨v0, rest⟩
  · exact absurd hvs hne
  have hres : getClosestCallbackToTarget target data =
      closestGo target data.frameTimeNanos v0 rest := by
    unfold getClosestCallbackToTarget
    rw [hvs]
  rw [hres]
  rcases closestGo_spec target data.frameTimeNanos rest v0 with
    ⟨heq, hall⟩ | ⟨l₁, l₂, hsplit, hbest, hleft, hright⟩
  · refine ⟨[], rest, by simp [heq], ?_, by simp⟩
    intro w hw
    rw [heq]
    rcases List.mem_cons.mp hw with rfl | hw1
    · exact le_refl _
    · exact hall w hw1
  · refine ⟨v0 :: l₁, l₂, by rw [List.cons_append, ← hsplit], ?_, ?_⟩
    · intro w hw
      rcases List.mem_cons.mp hw with rfl | hw1
      · exact le_of_lt hbest
      · rw [hsplit] at hw1
        rcases List.mem_append.mp hw1 with h1 | h1
        · exact le_of_lt (hleft w h1)
        · rcases List.mem_cons.mp h1 with rfl | h2
          · exact le_refl _
          · exact hright w h2
    · intro w hw
      rcases List.mem_cons.mp hw with rfl | hw1
      · exact hbest
      · exact hleft w hw1

/-- Witness for C7: Snapshot with deadlines `{10, 7, 13}` from frame time
`0` and target `8`: candidates `7` and `10` are equally close (diff `1`),
the scan keeps the first one (deadline `10`, index `0`). -/
theorem getClosestCallbackToTarget_spec_witness :
    ∃ l₁ l₂,
      (VsyncData.mk 0 3 0 [⟨0, 10, 0, 0⟩, ⟨1, 7, 0, 1⟩, ⟨2, 13, 0, 2⟩]).vsyncs =
        l₁ ++ getClosestCallbackToTarget 8
            (VsyncData.mk 0 3 0 [⟨0, 10, 0, 0⟩, ⟨1, 7, 0, 1⟩, ⟨2, 13, 0, 2⟩]) :: l₂ ∧
      (∀ v ∈ (VsyncData.mk 0 3 0 [⟨0, 10, 0, 0⟩, ⟨1, 7, 0, 1⟩, ⟨2, 13, 0, 2⟩]).vsyncs,
        candDiff 8 (VsyncData.mk 0 3 0
            [⟨0, 10, 0, 0⟩, ⟨1, 7, 0, 1⟩, ⟨2, 13, 0, 2⟩]).frameTimeNanos
          (getClosestCallbackToTarget 8 (VsyncData.mk 0 3 0
            [⟨0, 10, 0, 0⟩, ⟨1, 7, 0, 1⟩, ⟨2, 13, 0, 2⟩])) ≤
          candDiff 8 (VsyncData.mk 0 3 0
            [⟨0, 10, 0, 0⟩, ⟨1, 7, 0, 1⟩, ⟨2, 13, 0, 2⟩]).frameTimeNanos v) ∧
      (∀ v ∈ l₁,
        candDiff 8 (VsyncData.mk 0 3 0
            [⟨0, 10, 0, 0⟩, ⟨1, 7, 0, 1⟩, ⟨2, 13, 0, 2⟩]).frameTimeNanos
          (getClosestCallbackToTarget 8 (VsyncData.mk 0 3 0
            [⟨0, 10, 0, 0⟩, ⟨1, 7, 0, 1⟩, ⟨2, 13, 0, 2⟩])) <
          candDiff 8 (VsyncData.mk 0 3 0
            [⟨0, 10, 0, 0⟩, ⟨1, 7, 0, 1⟩, ⟨2, 13, 0, 2⟩]).frameTimeNanos v) :=
  getClosestCallbackToTarget_spec 8
    (VsyncData.mk 0 3 0 [⟨0, 10, 0, 0⟩, ⟨1, 7, 0, 1⟩, ⟨2, 13, 0, 2⟩])
    (by simp)

/-! ### `Renderer::getFrameStats` -/

/-- Models `size_t` subtraction by one (`batchData.durations.size() - 1` wraps
modulo `2^64` when the vector is empty). -/
def sizeSub1 (n : ℕ) : ℕ := (2 ^ 64 + n - 1) % 2 ^ 64

/-- Embeds `std::accumulate(durations.begin(), durations.end(), 0.0)`. -/
def durationsSum (ds : List ℤ) : ℚ :=
  ds.foldl (fun (acc : ℚ) (d : ℤ) => acc + (d : ℚ)) 0

/-- Embeds `mean = sum / durations.size()`. -/
def durationsMean (ds : List ℤ) : ℚ :=
  durationsSum ds / (ds.length : ℚ)

/-- The `varianceSum += (duration - mean) * (duration - mean)` loop. -/
def varianceSum (ds : List ℤ) : ℚ :=
  ds.foldl
    (fun (acc : ℚ) (d : ℤ) =>
      acc + ((d : ℚ) - durationsMean ds) * ((d : ℚ) - durationsMean ds)) 0

/-- The radicand of `stats.deviation = std::sqrt(varianceSum / (size - 1))`;
the deviation itself is its square root. -/
def deviationSq (ds : List ℤ) : ℚ :=
  varianceSum ds / (sizeSub1 ds.length : ℚ)

/-- The `targets` vector built at the top of `getFrameStats`: one entry
per recorded vsync snapshot, `selectedVsync[i].deadlineNanos -
vsyncs[i].frameTimeNanos` (the loop is bounded by `vsyncs.size()`). -/
def frameStatsTargets (batch : FrameBatchData) : List ℤ :=
  (List.range batch.vsyncs.length).map fun i =>
    (batch.selectedVsync.getD i default).deadlineNanos -
      (batch.vsyncs.getD i default).frameTimeNanos

/-- Embeds `struct FrameStats` from `Renderer.h`, restricted to the statistical
fields `getFrameStats` computes from the batch.  The two guarded medians
are `none` when their guard leaves the field uninitialized; the
unconditionally assigned `medianClosestDeadlineToTarget` is `none` exactly
when `getMedian` reads out of bounds (undefined behaviour in C++). -/
structure FrameStats where
  medianWorkDuration : Option ℤ
  medianFrameInterval : Option ℤ
  deviationSq : ℚ
  medianClosestDeadlineToTarget : Option ℤ
  actualTargetDuration : ℤ
  deriving Repr, DecidableEq

/-- The statistical core of `Renderer::getFrameStats(batchData, testName)`
(`lastTarget_` passed explicitly; the `results_` logging and the
hint-session-only drop counters do not affect these fields). -/
def getFrameStats (lastTarget : ℤ) (batch : FrameBatchData) : FrameStats :=
  { actualTargetDuration := lastTarget
    medianClosestDeadlineToTarget := getMedian (frameStatsTargets batch)
    medianWorkDuration :=
      if 0 < batch.durations.length then getMedian batch.durations else none
    medianFrameInterval :=
      if 0 < batch.intervals.length then getMedian batch.intervals else none
    deviationSq := deviationSq batch.durations }

/-- The sample variance as the spec words it: sum of squared deviations
from the mean, divided by `n - 1` (not `n`). -/
def sampleVarianceSpec (ds : List ℤ) : ℚ :=
  (ds.map fun (d : ℤ) =>
      ((d : ℚ) - (ds.map fun (e : ℤ) => (e : ℚ)).sum / (ds.length : ℚ)) ^ 2).sum /
    ((ds.length : ℚ) - 1)

theorem foldl_add_map (f : ℤ → ℚ) :
    ∀ (l : List ℤ) (a : ℚ), l.foldl (fun acc d => acc + f d) a = a + (l.map f).sum := by
  intro l
  induction l with
  | nil => intro a; simp
  | cons x xs ih =>
    intro a
    simp only [List.foldl_cons, List.map_cons, List.sum_cons, ih]
    ring

theorem durationsSum_eq (ds : List ℤ) :
    durationsSum ds = (ds.map fun (d : ℤ) => (d : ℚ)).sum := by
  unfold durationsSum
  simpa using foldl_add_map (fun d => (d : ℚ)) ds 0

theorem varianceSum_eq (ds : List ℤ) :
    varianceSum ds = (ds.map fun (d : ℤ) => ((d : ℚ) - durationsMean ds) ^ 2).sum := by
  unfold varianceSum
  have h := foldl_add_map
    (fun d => ((d : ℚ) - durationsMean ds) * ((d : ℚ) - durationsMean ds)) ds 0
  rw [h]
  simp [pow_two]

theorem sizeSub1_eq (n : ℕ) (h1 : 1 ≤ n) (h2 : n < 2 ^ 64) : sizeSub1 n = n - 1 := by
  unfold sizeSub1
  have hpow : (2 : ℕ) ^ 64 = 18446744073709551616 := by norm_num
  rw [hpow] at h2 ⊢
  omega

/-- Claim C8: For every batch with at least two recorded durations (and a
machine-representable count), the `deviation` field of `getFrameStats` is
the sample standard deviation: its radicand equals the sum of squared
deviations from the mean divided by `n - 1` (not `n`), so the field equals
the square root of that quotient. -/
theorem getFrameStats_deviation (lastTarget : ℤ) (batch : FrameBatchData)
    (h2 : 2 ≤ batch.durations.length) (h64 : batch.durations.length < 2 ^ 64) :
    (getFrameStats lastTarget batch).deviationSq = sampleVarianceSpec batch.durations ∧
      Real.sqrt ((getFrameStats lastTarget batch).deviationSq : ℝ) =
        Real.sqrt ((sampleVarianceSpec batch.durations : ℝ)) := by
  have h1 : 1 ≤ batch.durations.length := le_trans one_le_two h2
  have hmain : (getFrameStats lastTarget batch).deviationSq =
      sampleVarianceSpec batch.durations := by
    show deviationSq batch.durations = sampleVarianceSpec batch.durations
    unfold deviationSq sampleVarianceSpec
    rw [sizeSub1_eq _ h1 h64, varianceSum_eq]
    have hmean : durationsMean batch.durations =
        (batch.durations.map fun (e : ℤ) => (e : ℚ)).sum / (batch.durations.length : ℚ) := by
      rw [durationsMean, durationsSum_eq]
    rw [hmean]
    congr 1
    push_cast [Nat.cast_sub h1]
    ring
  exact ⟨hmain, by rw [hmain]⟩

/-- Witness for C8: Durations `[1, 3]`: mean `2`, squared deviations sum
`2`, divided by `n - 1 = 1` (not `n = 2`), giving radicand `2`. -/
theorem getFrameStats_deviation_witness :
    2 ≤ (FrameBatchData.mk [1, 3] [] [] []).durations.length ∧
      (getFrameStats 0 (FrameBatchData.mk [1, 3] [] [] [])).deviationSq =
          sampleVarianceSpec (FrameBatchData.mk [1, 3] [] [] []).durations ∧
        Real.sqrt ((getFrameStats 0 (FrameBatchData.mk [1, 3] [] [] [])).deviationSq : ℝ) =
          Real.sqrt ((sampleVarianceSpec (FrameBatchData.mk [1, 3] [] [] []).durations : ℝ)) :=
  ⟨by norm_num,
    getFrameStats_deviation 0 (FrameBatchData.mk [1, 3] [] [] [])
      (by norm_num) (by norm_num)⟩

/-- Claim C10: `getMedian` indexes the sorted copy at `⌊n/2⌋`: the read is
in bounds exactly for non-empty input; for even length `2k` (`k > 0`) it
returns the entry at sorted index `k`, the upper of the two middle values
(not their mean); and `getFrameStats` applies `getMedian` to the
per-frame `targets` list unconditionally, so a batch with zero recorded
vsync snapshots reaches the out-of-bounds (error) branch. -/
theorem getMedian_bounds_and_unconditional_use :
    (∀ values : List ℤ, (getMedian values).isSome ↔ values ≠ []) ∧
      (∀ (values : List ℤ) (k : ℕ), values.length = 2 * k → 0 < k →
        getMedian values = (List.insertionSort (· ≤ ·) values)[k]?) ∧
      (∀ (lastTarget : ℤ) (batch : FrameBatchData), batch.vsyncs = [] →
        frameStatsTargets batch = [] ∧
          (getFrameStats lastTarget batch).medianClosestDeadlineToTarget = none) := by
  refine ⟨?_, ?_, ?_⟩
  · intro values
    constructor
    · intro h hnil
      subst hnil
      simp [getMedian] at h
    · intro h
      have hpos : 0 < values.length := List.length_pos.mpr h
      have hlt : values.length / 2 < (List.insertionSort (· ≤ ·) values).length := by
        rw [List.length_insertionSort]
        exact Nat.div_lt_self hpos one_lt_two
      unfold getMedian
      simp [List.getElem?_eq_getElem hlt]
  · intro values k hlen hk
    unfold getMedian
    rw [hlen, Nat.mul_div_cancel_left k two_pos]
  · intro lastTarget batch hempty
    have ht : frameStatsTargets batch = [] := by
      unfold frameStatsTargets
      rw [hempty]
      simp
    refine ⟨ht, ?_⟩
    show getMedian (frameStatsTargets batch) = none
    rw [ht]
    rfl

/-- Witness for C10: `getMedian [5, 1, 4, 2]` reads sorted index `2` and
returns `4`, the upper middle of `{2, 4}`; a batch with no vsync
snapshots drives `getMedian` to the out-of-bounds branch of
`getFrameStats`. -/
theorem getMedian_bounds_and_unconditional_use_witness :
    ((getMedian [5, 1, 4, 2]).isSome ↔ ([5, 1, 4, 2] : List ℤ) ≠ []) ∧
      getMedian [5, 1, 4, 2] = (List.insertionSort (· ≤ ·) [(5 : ℤ), 1, 4, 2])[2]? ∧
      frameStatsTargets (FrameBatchData.mk [] [] [] []) = [] ∧
      (getFrameStats 0 (FrameBatchData.mk [] [] [] [])).medianClosestDeadlineToTarget =
        none :=
  ⟨getMedian_bounds_and_unconditional_use.1 [5, 1, 4, 2],
    getMedian_bounds_and_unconditional_use.2.1 [5, 1, 4, 2] 2 rfl (by norm_num),
    getMedian_bounds_and_unconditional_use.2.2 0 (FrameBatchData.mk [] [] [] []) rfl⟩

/-! ### `Renderer` hint-session lifecycle

The `APerformanceHint_*` platform calls are the environment: their return
values are the fields of `HintAPIEnv`, and the calls the renderer makes
into the session API are recorded as an explicit `APICall` trace.
Manager and session handles are `Option ℕ` (`none` = `nullptr`). -/

/-- Results returned by the platform hint API during one scenario. -/
structure HintAPIEnv where
  managerResult : Option ℕ
  preferredRate : ℤ
  createResult : Option ℕ
  reportRet : ℤ
  deriving Repr, DecidableEq

/-- The `Renderer` fields the hint-session methods touch. -/
structure RendererState where
  hintManager : Option ℕ
  hintSession : Option ℕ
  lastTarget : ℤ
  results : List (String × String)
  failed : Bool
  deriving Repr, DecidableEq

/-- Embeds `results_[name] = value` on the `std::map`: assign in place if the key
exists, else insert. -/
def setResult (rs : List (String × String)) (key value : String) :
    List (String × String) :=
  if rs.any (fun p => p.1 = key) then
    rs.map (fun p => if p.1 = key then (key, value) else p)
  else rs ++ [(key, value)]

/-- A call made into the platform session API. -/
inductive APICall where
  | reportActual (session : ℕ) (duration : ℤ)
  deriving Repr, DecidableEq

/-- Embeds `Renderer::startHintSession(target)`. -/
def startHintSession (env : HintAPIEnv) (target : ℤ) (st : RendererState) :
    Bool × RendererState :=
  let st1 := if st.hintManager = none then { st with hintManager := env.managerResult } else st
  let preferredRate := env.preferredRate
  let st2 := { st1 with
    results := setResult st1.results "preferredRate" (toString preferredRate) }
  let st3 :=
    if 0 < preferredRate ∧ st2.hintSession = none ∧ st2.hintManager ≠ none then
      { st2 with lastTarget := target, hintSession := env.createResult }
    else st2
  let supported := decide (0 < preferredRate) && st3.hintSession.isSome
  let st4 := { st3 with
    results := setResult st3.results "isHintSessionSupported"
      (if supported then "true" else "false") }
  (supported, st4)

/-- Embeds `Renderer::isHintSessionRunning()`: `hintSession_ != nullptr`. -/
def isHintSessionRunning (st : RendererState) : Bool :=
  st.hintSession.isSome

/-- Embeds `Renderer::reportActualWorkDuration(duration)`: guarded by
`isHintSessionRunning()`; on a negative API return, `Utility::setFailure`
marks the run failed.  Returns the new state and the session-API calls
made. -/
def reportActualWorkDuration (env : HintAPIEnv) (st : RendererState)
    (duration : ℤ) : RendererState × List APICall :=
  match st.hintSession with
  | some s =>
    let ret := env.reportRet
    let st' := if ret < 0 then { st with failed := true } else st
    (st', [APICall.reportActual s duration])
  | none => (st, [])

/-- Claim C3: Starting from a renderer with no session, if the platform
reports hint sessions unsupported — preferred update rate zero/negative,
or session creation returning null — then `startHintSession` returns
`false`, `isHintSessionRunning()` is `false` afterwards, and
`reportActualWorkDuration` is a no-op that makes no session-API call. -/
theorem startHintSession_unsupported (env : HintAPIEnv) (target : ℤ)
    (st : RendererState) (h0 : st.hintSession = none)
    (hunsupported : env.preferredRate ≤ 0 ∨ env.createResult = none) :
    (startHintSession env target st).1 = false ∧
      isHintSessionRunning (startHintSession env target st).2 = false ∧
      ∀ duration,
        reportActualWorkDuration env (startHintSession env target st).2 duration =
          ((startHintSession env target st).2, []) := by
  have hsess : (startHintSession env target st).2.hintSession = none := by
    unfold startHintSession
    rcases hunsupported with hrate | hnull
    · have hcond : ¬(0 < env.preferredRate ∧
          (if st.hintManager = none then { st with hintManager := env.managerResult }
            else st).hintSession = none ∧
          (if st.hintManager = none then { st with hintManager := env.managerResult }
            else st).hintManager ≠ none) := by
        intro hc
        exact absurd hc.1 (not_lt.mpr hrate)
      simp only [hcond, if_false]
      split <;> simp [h0]
    · by_cases hmgr : st.hintManager = none <;> simp [hmgr, h0, hnull] <;> split <;> simp [hnull]
  refine ⟨?_, ?_, ?_⟩
  · show (decide (0 < env.preferredRate) &&
      Option.isSome (startHintSession env target st).2.hintSession) = false
    rw [hsess]
    simp [Option.isSome]
  · unfold isHintSessionRunning
    rw [hsess]
    rfl
  · intro duration
    unfold reportActualWorkDuration
    rw [hsess]

/-- Witness for C3: Platform with positive rate `8333333` target but null
session creation: start returns `false`, the session is not running, and
reporting duration `123` touches no API. -/
theorem startHintSession_unsupported_witness :
    (startHintSession (HintAPIEnv.mk (some 1) 8333333 none 0) 8333333
        (RendererState.mk none none 0 [] false)).1 = false ∧
      isHintSessionRunning
        (startHintSession (HintAPIEnv.mk (some 1) 8333333 none 0) 8333333
          (RendererState.mk none none 0 [] false)).2 = false ∧
      ∀ duration,
        reportActualWorkDuration (HintAPIEnv.mk (some 1) 8333333 none 0)
            (startHintSession (HintAPIEnv.mk (some 1) 8333333 none 0) 8333333
              (RendererState.mk none none 0 [] false)).2 duration =
          ((startHintSession (HintAPIEnv.mk (some 1) 8333333 none 0) 8333333
            (RendererState.mk none none 0 [] false)).2, []) :=
  startHintSession_unsupported (HintAPIEnv.mk (some 1) 8333333 none 0) 8333333
    (RendererState.mk none none 0 [] false) rfl (Or.inr rfl)

/-! ### `calibrate` from `main.cpp`

The loop draws frames through the renderer and reads back the measured
median work duration and median frame interval; those measurements are the
environment, passed as `oracle : ℕ → ℤ × ℤ` indexed by the iteration
count.  `std::sqrt` is the parameter `sq`.  Every observable call the
function makes — `addResult` and (if it occurred) `Utility::setFailure` —
is recorded in an event list.  A C++ `int(e)` conversion of a `double`
expression `e` truncates toward zero; where `e` is a ratio of integer
products its exact value is an integer quotient and the truncation is
embedded as `Int.tdiv` of the integer products, otherwise as `ratTrunc`
of the exact rational (`x / 0 = 0` in `ℚ` where IEEE would give an
infinity; no claim depends on those inputs). -/

/-- Truncation of an exact rational toward zero (`int`/`int64_t` cast of
a `double`). -/
def ratTrunc (q : ℚ) : ℤ := Int.tdiv q.num (q.den : ℤ)

/-- An observable call made by `calibrate`. -/
inductive CalibEvent where
  | addResult (name value : String)
  | setFailure (msg : String)
  deriving Repr, DecidableEq

/-- Whether an event trace contains a `Utility::setFailure` call. -/
def hasFailn (evs : List CalibEvent) : Bool :=
  evs.any fun e =>
    match e with
    | CalibEvent.setFailure _ => true
    | CalibEvent.addResult _ _ => false

/-- The mutable locals of `calibrate` plus the event trace. -/
structure CalibState where
  duration : ℤ
  interval : ℤ
  heads : ℤ
  physicsIter : ℤ
  fixedHeads : Bool
  calibrateIter : ℤ
  events : List CalibEvent
  deriving Repr, DecidableEq

/-- Embeds `const int64_t goal = interval * 0.75;` (exact truncation of
`interval · 3/4`). -/
def calibrateGoal (interval : ℤ) : ℤ := Int.tdiv (3 * interval) 4

/-- Embeds `duration_min = goal - max(interval / 8, 1000us)`. -/
def calibrateDurationMin (interval : ℤ) : ℤ :=
  calibrateGoal interval - max (Int.tdiv interval 8) 1000000

/-- Embeds `duration_max = goal + max(interval / 8, 1000us)`. -/
def calibrateDurationMax (interval : ℤ) : ℤ :=
  calibrateGoal interval + max (Int.tdiv interval 8) 1000000

/-- The `while` guard of the calibration loop. -/
def calibrateCond (intervalMax durationMin durationMax : ℤ)
    (st : CalibState) : Prop :=
  st.calibrateIter < 10 ∧
    (((st.duration < durationMin ∨ durationMax < st.duration) ∧ 0 < st.physicsIter) ∨
      (intervalMax < st.interval ∧ 1 < st.heads ∧ st.fixedHeads = false))

instance (intervalMax durationMin durationMax : ℤ) (st : CalibState) :
    Decidable (calibrateCond intervalMax durationMin durationMax st) := by
  unfold calibrateCond
  infer_instance

/-- One iteration of the calibration loop body. -/
def calibrateStep (sq : ℚ → ℚ) (oracle : ℕ → ℤ × ℤ)
    (goal intervalMax durationMin durationMax : ℤ) (st : CalibState) :
    CalibState :=
  let stats := oracle st.calibrateIter.toNat
  let duration := stats.1
  let interval := stats.2
  let logs :=
    [CalibEvent.addResult ("calibration_" ++ toString st.calibrateIter ++ "_duration")
        (toString duration),
      CalibEvent.addResult ("calibration_" ++ toString st.calibrateIter ++ "_interval")
        (toString interval),
      CalibEvent.addResult ("calibration_" ++ toString st.calibrateIter ++ "_heads")
        (toString st.heads),
      CalibEvent.addResult ("calibration_" ++ toString st.calibrateIter ++ "_physicsIter")
        (toString st.physicsIter)]
  -- the `if (!fixedHeads)` block: possibly adjust the head count, or fix it
  let headsFixed :=
    if st.fixedHeads then (st.heads, true)
    else if intervalMax < interval ∧ 1 < st.heads then
      (Int.tdiv (intervalMax * st.heads) interval, false)
    else if duration < Int.tdiv goal 8 ∧ st.heads < 40 then
      (ratTrunc (min 2 ((goal : ℚ) / 8 / (duration : ℚ)) * (st.heads : ℚ)), false)
    else (st.heads, true)
  let headsClamped :=
    if st.fixedHeads then headsFixed.1 else max (min 40 headsFixed.1) 1
  -- the `if (fixedHeads)` block: tune the physics iteration count
  let physicsNext :=
    if headsFixed.2 then
      if durationMax < duration then
        min (st.physicsIter - 1) (Int.tdiv (goal * st.physicsIter) duration)
      else if duration < durationMin then
        max (st.physicsIter + 3)
          (ratTrunc (sq ((goal : ℚ) / (duration : ℚ)) * (st.physicsIter : ℚ)))
      else st.physicsIter
    else st.physicsIter
  { duration := duration
    interval := interval
    heads := headsClamped
    physicsIter := physicsNext
    fixedHeads := headsFixed.2
    calibrateIter := st.calibrateIter + 1
    events := st.events ++ logs }

/-- The calibration `while` loop; the fuel starts at 10 and dominates the
`calibrateIter < 10` guard, so the recursion is exactly the loop. -/
def calibrateLoop (sq : ℚ → ℚ) (oracle : ℕ → ℤ × ℤ)
    (goal intervalMax durationMin durationMax : ℤ) :
    ℕ → CalibState → CalibState
  | 0, st => st
  | fuel + 1, st =>
    if calibrateCond intervalMax durationMin durationMax st then
      calibrateLoop sq oracle goal intervalMax durationMin durationMax fuel
        (calibrateStep sq oracle goal intervalMax durationMin durationMax st)
    else st

/-- Embeds `calibrate(interval, ...)` from `main.cpp`: run the tuning loop, then
record the five summary result fields and return (the returned value is
the final `duration` field). -/
def calibrate (sq : ℚ → ℚ) (oracle : ℕ → ℤ × ℤ) (interval : ℤ) : CalibState :=
  let goal := calibrateGoal interval
  let intervalMax := interval + 1000000
  let st := calibrateLoop sq oracle goal intervalMax
    (calibrateDurationMin interval) (calibrateDurationMax interval) 10
    { duration := 0, interval := interval, heads := 5, physicsIter := 1,
      fixedHeads := false, calibrateIter := 0, events := [] }
  { st with events := st.events ++
      [CalibEvent.addResult "goal" (toString goal),
        CalibEvent.addResult "duration" (toString st.duration),
        CalibEvent.addResult "heads_count" (toString st.heads),
        CalibEvent.addResult "interval" (toString st.interval),
        CalibEvent.addResult "physics_iterations" (toString st.physicsIter)] }

theorem hasFailn_append (a b : List CalibEvent) :
    hasFailn (a ++ b) = (hasFailn a || hasFailn b) := by
  unfold hasFailn
  exact List.any_append

theorem hasFailn_calibrateStep (sq : ℚ → ℚ) (oracle : ℕ → ℤ × ℤ)
    (goal intervalMax durationMin durationMax : ℤ) (st : CalibState) :
    hasFailn (calibrateStep sq oracle goal intervalMax durationMin
        durationMax st).events = hasFailn st.events := by
  show hasFailn (st.events ++ _) = hasFailn st.events
  rw [hasFailn_append]
  simp [hasFailn]

theorem hasFailn_calibrateLoop (sq : ℚ → ℚ) (oracle : ℕ → ℤ × ℤ)
    (goal intervalMax durationMin durationMax : ℤ) :
    ∀ (fuel : ℕ) (st : CalibState),
      hasFailn (calibrateLoop sq oracle goal intervalMax durationMin
          durationMax fuel st).events = hasFailn st.events := by
  intro fuel
  induction fuel with
  | zero => intro st; rfl
  | succ n ih =>
    intro st
    show hasFailn (if calibrateCond intervalMax durationMin durationMax st then _ else st).events = _
    split
    · rw [ih, hasFailn_calibrateStep]
    · rfl

/-- Claim C2, amended: `calibrate` never calls `Utility::setFailure` — for
every square-root approximation, every sequence of measured statistics and
every initial interval, its observable trace consists of `addResult`
records only; in particular exhausting the 10-iteration budget without
reaching the tolerance band terminates the loop silently, leaving
non-convergence observable only through the recorded result fields and
the returned duration. -/
theorem calibrate_no_setFailure (sq : ℚ → ℚ) (oracle : ℕ → ℤ × ℤ)
    (interval : ℤ) :
    hasFailn (calibrate sq oracle interval).events = false := by
  show hasFailn (_ ++ _) = false
  rw [hasFailn_append, hasFailn_calibrateLoop]
  simp [hasFailn]

theorem ratTrunc_zero_mul (p : ℤ) : ratTrunc (0 * (p : ℚ)) = 0 := by
  rw [zero_mul]
  simp [ratTrunc]

theorem cx_step_fields (st : CalibState) (hH : st.heads = 5)
    (hP : 0 < st.physicsIter) :
    (calibrateStep (fun _ => 0) (fun _ => ((2000000 : ℤ), (16666666 : ℤ)))
        12499999 17666666 10416666 14583332 st).duration = 2000000 ∧
      (calibrateStep (fun _ => 0) (fun _ => ((2000000 : ℤ), (16666666 : ℤ)))
        12499999 17666666 10416666 14583332 st).interval = 16666666 ∧
      (calibrateStep (fun _ => 0) (fun _ => ((2000000 : ℤ), (16666666 : ℤ)))
        12499999 17666666 10416666 14583332 st).heads = 5 ∧
      (calibrateStep (fun _ => 0) (fun _ => ((2000000 : ℤ), (16666666 : ℤ)))
        12499999 17666666 10416666 14583332 st).physicsIter = st.physicsIter + 3 ∧
      (calibrateStep (fun _ => 0) (fun _ => ((2000000 : ℤ), (16666666 : ℤ)))
        12499999 17666666 10416666 14583332 st).fixedHeads = true ∧
      (calibrateStep (fun _ => 0) (fun _ => ((2000000 : ℤ), (16666666 : ℤ)))
        12499999 17666666 10416666 14583332 st).calibrateIter = st.calibrateIter + 1 := by
  have h1 : ¬((17666666 : ℤ) < 16666666) := by decide
  have h2 : ¬((2000000 : ℤ) < Int.tdiv 12499999 8) := by decide
  have h3 : ¬((14583332 : ℤ) < 2000000) := by decide
  have h4 : ((2000000 : ℤ) < 10416666) := by decide
  have h5 := ratTrunc_zero_mul st.physicsIter
  have h6 : max (st.physicsIter + 3) 0 = st.physicsIter + 3 := by omega
  have h7 : ratTrunc 0 = 0 := by simp [ratTrunc]
  by_cases hF : st.fixedHeads = true
  · simp [calibrateStep, hF, hH, h1, h2, h3, h4, h5, h6, h7]
  · simp only [Bool.not_eq_true] at hF
    simp [calibrateStep, hF, hH, h1, h2, h3, h4, h5, h6, h7]

theorem cx_loop_fields :
    ∀ (n : ℕ) (st : CalibState), st.heads = 5 → st.duration < 10416666 →
      0 < st.physicsIter → st.calibrateIter + (n : ℤ) = 10 → 1 ≤ n →
      (calibrateLoop (fun _ => 0) (fun _ => ((2000000 : ℤ), (16666666 : ℤ)))
          12499999 17666666 10416666 14583332 n st).calibrateIter = 10 ∧
        (calibrateLoop (fun _ => 0) (fun _ => ((2000000 : ℤ), (16666666 : ℤ)))
          12499999 17666666 10416666 14583332 n st).duration = 2000000 := by
  intro n
  induction n with
  | zero => intro st _ _ _ _ h; cases h
  | succ m ih =>
    intro st hH hD hP hiter _
    have hcond : calibrateCond 17666666 10416666 14583332 st := by
      refine ⟨by omega, Or.inl ⟨Or.inl hD, hP⟩⟩
    have hloop : calibrateLoop (fun _ => 0)
        (fun _ => ((2000000 : ℤ), (16666666 : ℤ)))
        12499999 17666666 10416666 14583332 (m + 1) st =
        calibrateLoop (fun _ => 0) (fun _ => ((2000000 : ℤ), (16666666 : ℤ)))
          12499999 17666666 10416666 14583332 m
          (calibrateStep (fun _ => 0) (fun _ => ((2000000 : ℤ), (16666666 : ℤ)))
            12499999 17666666 10416666 14583332 st) := by
      show (if calibrateCond 17666666 10416666 14583332 st then _ else st) = _
      rw [if_pos hcond]
    rw [hloop]
    obtain ⟨e1, e2, e3, e4, e5, e6⟩ := cx_step_fields st hH hP
    rcases Nat.eq_zero_or_pos m with rfl | hm
    · refine ⟨?_, ?_⟩
      · show (calibrateStep (fun _ => 0) (fun _ => ((2000000 : ℤ), (16666666 : ℤ)))
          12499999 17666666 10416666 14583332 st).calibrateIter = 10
        omega
      · exact e1
    · exact ih _ e3 (by omega) (by omega) (by omega) hm

/-- Counterexample for C2: With every measurement reading median duration
2,000,000ns and median interval 16,666,666ns (and `std::sqrt` stubbed to
0), starting from interval 16,666,666ns: the loop exhausts all 10
iterations, the final duration 2,000,000 is still below the tolerance
band's lower edge `duration_min`, and the event trace contains no
`setFailure` call — non-convergence does not mark the run failed,
contradicting the claim. -/
theorem calibrate_nonconvergence_silent :
    (calibrate (fun _ => 0) (fun _ => ((2000000 : ℤ), (16666666 : ℤ)))
        16666666).calibrateIter = 10 ∧
      (calibrate (fun _ => 0) (fun _ => ((2000000 : ℤ), (16666666 : ℤ)))
        16666666).duration < calibrateDurationMin 16666666 ∧
      hasFailn (calibrate (fun _ => 0) (fun _ => ((2000000 : ℤ), (16666666 : ℤ)))
        16666666).events = false := by
  have hg : calibrateGoal 16666666 = 12499999 := by decide
  have hmin : calibrateDurationMin 16666666 = 10416666 := by decide
  have hmax : calibrateDurationMax 16666666 = 14583332 := by decide
  have hloop := cx_loop_fields 10
    { duration := 0, interval := 16666666, heads := 5, physicsIter := 1,
      fixedHeads := false, calibrateIter := 0, events := [] }
    rfl (by decide) (by decide) (by decide) (by decide)
  have hfields : (calibrate (fun _ => 0)
      (fun _ => ((2000000 : ℤ), (16666666 : ℤ))) 16666666).calibrateIter =
        (calibrateLoop (fun _ => 0) (fun _ => ((2000000 : ℤ), (16666666 : ℤ)))
          12499999 17666666 10416666 14583332 10
          { duration := 0, interval := 16666666, heads := 5, physicsIter := 1,
            fixedHeads := false, calibrateIter := 0, events := [] }).calibrateIter ∧
      (calibrate (fun _ => 0)
        (fun _ => ((2000000 : ℤ), (16666666 : ℤ))) 16666666).duration =
        (calibrateLoop (fun _ => 0) (fun _ => ((2000000 : ℤ), (16666666 : ℤ)))
          12499999 17666666 10416666 14583332 10
          { duration := 0, interval := 16666666, heads := 5, physicsIter := 1,
            fixedHeads := false, calibrateIter := 0, events := [] }).duration := by
    unfold calibrate
    rw [hg, hmin, hmax]
    exact ⟨rfl, rfl⟩
  refine ⟨?_, ?_, ?_⟩
  · rw [hfields.1, hloop.1]
  · rw [hfields.2, hloop.2, hmin]
    decide
  · show hasFailn (_ ++ _) = false
    rw [hasFailn_append, hasFailn_calibrateLoop]
    simp [hasFailn]

end HintSession
